import Mathlib

/-!
A shallow embedding of the serverless audio-conversion function in
`src/functions/convert.js` of the netlify-audio-convert repository, together
with theorems settling the specification's claims about it.

The embedding covers: the binary locator (`getFFmpegPaths`), the encoder
capability prober (`checkAvailableEncoders`), the iOS-M4A input classification
(`isIosM4aOf`), the static strategy table and its filtering/reordering
(`strategies`, `availableStrategies`), the sequential fallback engine of
`convertWithFFmpeg` (`runEngine`), the post-conversion output discovery,
content-type selection and size gating of the handler (`handlerAfterDownload`),
and the timeout arithmetic of the conversion phase.

Subprocess executions are modelled by their observable outcomes.  The engine
is embedded twice: `runEngine` covers the resolution paths (a zero-exit close
resolves, a non-zero close or spawn error advances the index by one), which is
what the theorems conditioning on a zero-exit event exercise; `runEngineEvents`
additionally covers the source's timeout path, where the kill-timer callback
and the SIGKILLed process's own close event (exit code null) each advance the
shared strategy index and each schedule a retry, so a timed-out attempt moves
the index by two.  The handler model starts after the download phase, which is
network input/output, and is parameterised by the downloaded size and the
wall-clock time elapsed when the remaining-time guard runs.
-/

namespace AudioConvert

/-- JavaScript `hay.includes(needle)` on character lists: true when `needle`
occurs contiguously inside `hay`. -/
def listIncludes : List Char → List Char → Bool
  | [], needle => needle.isEmpty
  | h :: t, needle => needle.isPrefixOf (h :: t) || listIncludes t needle

/-- JavaScript `hay.includes(needle)` for strings, as used by the substring
checks of `checkAvailableEncoders` and the strategy filter. -/
def stringIncludes (hay needle : String) : Bool :=
  listIncludes hay.toList needle.toList

/-- Replace the first occurrence of `pat` in a character list by `rep`,
leaving the list unchanged when `pat` does not occur. -/
def replaceFirstChars (pat rep : List Char) : List Char → List Char
  | [] => []
  | h :: t =>
    if pat.isPrefixOf (h :: t) then rep ++ (h :: t).drop pat.length
    else h :: replaceFirstChars pat rep t

/-- JavaScript `s.replace(pat, rep)` with a string pattern: replaces only the
first occurrence (the scratch paths contain a single ".mp3", so this matches
the source's use exactly). -/
def stringReplaceFirst (s pat rep : String) : String :=
  String.mk (replaceFirstChars pat.toList rep.toList s.toList)

/-! ## Binary locator (`getFFmpegPaths`, convert.js lines 33-95) -/

/-- The ordered candidate paths for the ffmpeg binary (lines 34-45):
bundled locations, current-working-directory location, well-known system
locations, then the bare command name. -/
def possibleFFmpegPaths (dirname cwd : String) : List String :=
  [dirname ++ "/../bin/ffmpeg", dirname ++ "/bin/ffmpeg", cwd ++ "/bin/ffmpeg",
   "/opt/bin/ffmpeg", "/usr/bin/ffmpeg", "/usr/local/bin/ffmpeg", "ffmpeg"]

/-- The ordered candidate paths for the ffprobe binary (lines 47-55). -/
def ffprobeCandidatePaths (dirname cwd : String) : List String :=
  [dirname ++ "/../bin/ffprobe", dirname ++ "/bin/ffprobe", cwd ++ "/bin/ffprobe",
   "/opt/bin/ffprobe", "/usr/bin/ffprobe", "/usr/local/bin/ffprobe", "ffprobe"]

/-- The two terminal locator failures (lines 86-92). -/
inductive BinaryNotFound
  | ffmpeg
  | ffprobe
  deriving DecidableEq, Repr

/-- `getFFmpegPaths` (lines 33-95): each binary resolves to the first candidate
path for which `fs.existsSync` and `fs.statSync(..).isFile()` hold, abstracted
here as the predicate `isFile`; if no candidate passes the check the function
throws (ffmpeg missing reported first). -/
def getFFmpegPaths (isFile : String → Bool) (dirname cwd : String) :
    Except BinaryNotFound (String × String) :=
  match (possibleFFmpegPaths dirname cwd).find? isFile,
        (ffprobeCandidatePaths dirname cwd).find? isFile with
  | none, _ => .error .ffmpeg
  | some _, none => .error .ffprobe
  | some f, some p => .ok (f, p)

/-- Modelled from the spec (section 4.1), for comparison with `getFFmpegPaths`:
"return the first candidate that exists and is a regular file; if none of the
explicit paths match, return the bare command name as a last resort for
search-path resolution". -/
def locateBinarySpec (isFile : String → Bool) (explicitPaths : List String)
    (bare : String) : String :=
  match explicitPaths.find? isFile with
  | some p => p
  | none => bare

/-! ## Capability prober (`checkAvailableEncoders`, convert.js lines 98-156) -/

/-- The boolean capability flags derived from the encoder listing
(lines 133-136). -/
structure EncoderCapabilities where
  hasLibmp3lame : Bool
  hasMp3 : Bool
  hasAac : Bool
  hasWav : Bool
  deriving DecidableEq, Repr

/-- The all-false capability value returned on prober failure. -/
def noCapabilities : EncoderCapabilities :=
  { hasLibmp3lame := false, hasMp3 := false, hasAac := false, hasWav := false }

/-- The observable terminal event of the capability-probing subprocesses:
the version subprocess erroring (line 151), the encoder-listing subprocess
hitting its 3000 ms kill timer (lines 125-128), erroring (lines 144-148), or
closing with an exit code and collected stdout (lines 130-142). -/
inductive EncoderProbeEvent
  | configError
  | encoderTimeout
  | encoderSpawnError
  | encoderClose (code : Int) (stdout : String)
  deriving DecidableEq, Repr

/-- `checkAvailableEncoders` (lines 98-156) as a function of the probe event:
timeouts and errors resolve with all flags false; a close event resolves with
flags parsed from the collected stdout by substring containment — the exit
code is not consulted. -/
def checkAvailableEncoders : EncoderProbeEvent → EncoderCapabilities × String
  | .configError => (noCapabilities, "config-error")
  | .encoderTimeout => (noCapabilities, "timeout")
  | .encoderSpawnError => (noCapabilities, "error")
  | .encoderClose _ stdout =>
    ({ hasLibmp3lame := stringIncludes stdout "libmp3lame"
       hasMp3 := stringIncludes stdout " mp3 " || stringIncludes stdout "mp3float"
       hasAac := stringIncludes stdout "aac" || stringIncludes stdout "libfdk_aac"
       hasWav := stringIncludes stdout "pcm_" || stringIncludes stdout "wav" }, stdout)

/-! ## Input classification (convert.js lines 223-227) -/

/-- The probe metadata fields consulted by the iOS-M4A detection. -/
structure AudioMetadata where
  formatName : String
  firstStreamCodec : Option String
  hasFinalCutUuidTag : Bool
  deriving DecidableEq, Repr

/-- `isIosM4a` (lines 223-227): a null metadata value (probe failure) is
classified as not iOS; otherwise the container name, first stream codec and
the Apple Final Cut tag are consulted. -/
def isIosM4aOf : Option AudioMetadata → Bool
  | none => false
  | some m =>
    stringIncludes m.formatName "mov,mp4,m4a" || m.firstStreamCodec == some "aac" ||
      m.hasFinalCutUuidTag

/-! ## Strategy table (convert.js lines 239-300) -/

/-- A named transcoding strategy: a name and the ffmpeg argument list, whose
last element is the declared output path. -/
structure ConversionStrategy where
  name : String
  args : List String
  deriving DecidableEq, Repr

/-- The static strategy list (lines 243-300), parameterised by the input and
output scratch paths and the large-input flags of lines 240-241.  The
ultra-compressed strategy is present only for large inputs; the declared
output paths of the non-mp3 strategies substitute the extension of the
requested output path. -/
def strategies (inputPath outputPath : String) (isLargeInput isVeryLargeInput : Bool) :
    List ConversionStrategy :=
  (if isLargeInput then
    [{ name := "ultra-compressed"
       args := ["-i", inputPath, "-c:a", "aac",
                "-b:a", if isVeryLargeInput then "16k" else "24k",
                "-ar", "8000", "-ac", "1", "-f", "aac", "-y",
                stringReplaceFirst outputPath ".mp3" ".aac"] }]
  else []) ++
  [{ name := "wav-pcm-compressed"
     args := ["-i", inputPath, "-c:a", "pcm_s16le",
              "-ar", if isLargeInput then "8000" else "11025",
              "-ac", "1", "-f", "wav", "-y", stringReplaceFirst outputPath ".mp3" ".wav"] },
   { name := "aac-compressed"
     args := ["-i", inputPath, "-c:a", "aac",
              "-b:a", if isLargeInput then "16k" else "32k",
              "-ar", if isLargeInput then "8000" else "11025",
              "-ac", "1", "-f", "aac", "-y", stringReplaceFirst outputPath ".mp3" ".aac"] },
   { name := "libmp3lame-minimal"
     args := ["-i", inputPath, "-c:a", "libmp3lame",
              "-b:a", if isLargeInput then "16k" else "24k",
              "-ar", "8000", "-ac", "1", "-q:a", "9", "-f", "mp3", "-y", outputPath] }]

/-- Remove the first list element satisfying `p` (the effect of
`splice(indexOf(found), 1)` after a successful `find`). -/
def removeFirst (p : ConversionStrategy → Bool) :
    List ConversionStrategy → List ConversionStrategy
  | [] => []
  | x :: xs => if p x then xs else x :: removeFirst p xs

/-- The find/splice/unshift reordering used at lines 308-312 and 331-335:
when an element satisfying `p` exists, move its first occurrence to the front;
otherwise leave the list unchanged. -/
def promote (p : ConversionStrategy → Bool) (l : List ConversionStrategy) :
    List ConversionStrategy :=
  match l.find? p with
  | none => l
  | some s => s :: removeFirst p l

/-- The filtering and prioritising of lines 302-336, in source order: promote
a strategy named "wav-pcm" when PCM encoders are present, drop strategies
whose name contains "libmp3lame" when that encoder is absent, and promote a
strategy named "aac-output" when the input is classified as iOS M4A. -/
def availableStrategies (encoderInfo : EncoderCapabilities) (isIosM4a : Bool)
    (strats : List ConversionStrategy) : List ConversionStrategy :=
  let s1 := if encoderInfo.hasWav then promote (fun s => s.name == "wav-pcm") strats
    else strats
  let s2 := if !encoderInfo.hasLibmp3lame then
      s1.filter (fun s => !stringIncludes s.name "libmp3lame")
    else s1
  if isIosM4a then promote (fun s => s.name == "aac-output") s2 else s2

/-! ## Fallback engine (`convertWithFFmpeg`, convert.js lines 340-413) -/

/-- The observable terminal event of one conversion attempt: the kill timer
fired (lines 369-374), the spawn errored (lines 402-409), or the subprocess
closed with an exit code (lines 376-400). -/
inductive ProcessResult
  | timedOut
  | spawnError
  | closed (code : Int)
  deriving DecidableEq, Repr

/-- One attempt's outcome: the process event together with the state of the
strategy's declared output file afterwards (`none` when no file was created,
`some n` when a file of `n` bytes exists). -/
structure AttemptResult where
  proc : ProcessResult
  output : Option Nat
  deriving DecidableEq, Repr

/-- The engine's terminal state: a winning strategy with its output-file state
and the attempted-name list so far, or exhaustion of the list with the full
attempted-name list (the rejection of lines 344-348). -/
inductive EngineResult
  | succeeded (winner : ConversionStrategy) (output : Option Nat) (attempted : List String)
  | exhausted (attempted : List String)
  deriving DecidableEq, Repr

/-- The recursion of `tryConversion` (lines 343-410) on the resolution paths:
each attempt pushes its strategy name, resolves on a zero exit code — with no
inspection of the output file — and on a non-zero close or spawn error
advances to the next strategy.  `results i` is the terminal event of the
attempt at index `i`.  This function treats a timed-out attempt like a single
advance; the source's timeout path actually advances the index twice (the kill
timer and the killed process's close event both fire) and is modelled
faithfully by `runEngineEvents` below.  The theorems stated over `runEngine`
condition on zero-exit close events, where this embedding is exact. -/
def runEngineFrom (results : Nat → AttemptResult) :
    List ConversionStrategy → Nat → List String → EngineResult
  | [], _, attempted => .exhausted attempted
  | s :: rest, i, attempted =>
    if (results i).proc = ProcessResult.closed 0 then
      .succeeded s (results i).output (attempted ++ [s.name])
    else
      runEngineFrom results rest (i + 1) (attempted ++ [s.name])

/-- `convertWithFFmpeg`'s strategy loop, started at index 0 with an empty
attempted list (lines 340-341, 412). -/
def runEngine (strats : List ConversionStrategy) (results : Nat → AttemptResult) :
    EngineResult :=
  runEngineFrom results strats 0 []

/-- The name of the winning strategy, when the engine succeeded. -/
def EngineResult.winnerName : EngineResult → Option String
  | .succeeded w _ _ => some w.name
  | .exhausted _ => none

/-- The attempted-strategy list carried by either terminal state. -/
def EngineResult.attemptedList : EngineResult → List String
  | .succeeded _ _ a => a
  | .exhausted a => a

/-- The outcome of the `k`-th launched subprocess, including the timeout path:
`timedOut` means the kill timer fired (lines 369-374) and the SIGKILLed
process then emitted its own close event with exit code null (lines 376-399;
`clearTimeout` is a no-op because the timer already fired), so `currentStrategy`
is incremented twice and two retries are scheduled. -/
inductive AttemptEvent
  | timedOut
  | spawnErrored
  | closed (code : Int) (output : Option Nat)
  deriving DecidableEq, Repr

/-- A failure that advances the strategy index exactly once: a spawn error or
a close with a non-zero exit code — not a timeout. -/
def AttemptEvent.isPlainFailure : AttemptEvent → Bool
  | .timedOut => false
  | .spawnErrored => true
  | .closed code _ => code != 0

/-- `tryConversion` with the source's timeout path.  The state is the list of
strategies at and after the shared index, the launched-attempt counter `k`,
and the attempted-name list.  A zero-exit close resolves; a non-zero close or
spawn error advances by one; a timeout advances by two — the kill timer and
the killed process's close event each increment `currentStrategy` before the
first 100 ms retry runs (a SIGKILLed process closes within milliseconds, the
retry timer fires after 100 ms).  When the double advance lands at or past the
end of the list, the first retry finds no strategy left and rejects with the
names collected so far, settling the promise (later scheduled calls cannot
change a settled rejection); when strategies do remain after a double advance,
this model follows the first scheduled retry. -/
def runEngineEventsAux (events : Nat → AttemptEvent) :
    List ConversionStrategy → Nat → List String → EngineResult
  | [], _, attempted => .exhausted attempted
  | s :: rest, k, attempted =>
    match events k with
    | .closed code output =>
      if code = 0 then .succeeded s output (attempted ++ [s.name])
      else runEngineEventsAux events rest (k + 1) (attempted ++ [s.name])
    | .spawnErrored => runEngineEventsAux events rest (k + 1) (attempted ++ [s.name])
    | .timedOut =>
      match rest with
      | [] => .exhausted (attempted ++ [s.name])
      | _ :: rest2 => runEngineEventsAux events rest2 (k + 1) (attempted ++ [s.name])

/-- The timeout-faithful engine run, started at index 0 with an empty
attempted list. -/
def runEngineEvents (strats : List ConversionStrategy) (events : Nat → AttemptEvent) :
    EngineResult :=
  runEngineEventsAux events strats 0 []

/-! ## Timeout arithmetic (convert.js lines 369-374, 398, 552) -/

/-- The overall processing budget of the handler (line 446). -/
def MAX_PROCESSING_TIME : Nat := 9000

/-- The timeout value handed to `convertWithFFmpeg` (line 552): the remaining
time at the start of the conversion phase minus a 500 ms cleanup margin. -/
def conversionTimeoutMs (remainingTime : Nat) : Nat := remainingTime - 500

/-- The kill-timer duration of the attempt at a given index (lines 369-374):
every attempt arms its timer with the same `timeoutMs`; the index is not
consulted and the remaining budget is not recomputed. -/
def perAttemptTimeoutMs (timeoutMs : Nat) (_attemptIndex : Nat) : Nat := timeoutMs

/-- Wall-clock time consumed before the attempt at index `i` starts, on a run
whose first `i` attempts all timed out: each such attempt holds the engine for
its full kill-timer duration plus the 100 ms retry delay of lines 373 and 398. -/
def elapsedBeforeAttempt (timeoutMs : Nat) (i : Nat) : Nat := i * (timeoutMs + 100)

/-! ## Handler epilogue (convert.js lines 509-637) -/

/-- `path.extname`: the suffix of the path from its last dot (inclusive), or
the empty string when the path has no dot. -/
def extname (p : String) : String :=
  let rev := p.toList.reverse
  if rev.contains '.' then String.mk ('.' :: (rev.takeWhile (fun c => c ≠ '.')).reverse)
  else ""

/-- The state of the scratch output file after `convertWithFFmpeg` resolves
(lines 379-389): when the winning strategy's declared output path (its last
argument) differs from the requested `outputPath` and the file exists, it is
renamed to `outputPath`; in every case the produced bytes, if any, end up at
`outputPath`. -/
def outputFileAfter (outputPath : String) (winner : ConversionStrategy)
    (output : Option Nat) : Option (String × Nat) :=
  match output with
  | none => none
  | some n =>
    let actualOutputPath := winner.args.getLastD ""
    if actualOutputPath ≠ outputPath then some (outputPath, n) else some (outputPath, n)

/-- The candidate output paths scanned by the handler (lines 555-560). -/
def possibleOutputs (outPath : String) : List String :=
  [outPath, stringReplaceFirst outPath ".mp3" ".wav", stringReplaceFirst outPath ".mp3" ".aac",
   stringReplaceFirst outPath ".mp3" ".mp4"]

/-- The handler's scan for the first existing candidate output (lines 562-568),
over the single produced file modelled by `file`. -/
def findFinalOutput (file : Option (String × Nat)) (outPath : String) :
    Option (String × Nat) :=
  (possibleOutputs outPath).findSome? fun p =>
    match file with
    | some (q, n) => if q = p then some (p, n) else none
    | none => none

/-- Content-type selection from the final output extension (lines 582-591). -/
def contentTypeFor (ext : String) : String :=
  if ext = ".wav" then "audio/wav"
  else if ext = ".aac" then "audio/aac"
  else if ext = ".mp4" then "audio/mp4"
  else "audio/mpeg"

/-- The response size gate (line 594). -/
def NETLIFY_RESPONSE_LIMIT : Nat := 3 * 1024 * 1024

/-- The handler's terminal outcome, from line 509 onward: the typed errors
thrown on the way to the conversion, the two response shapes of lines 599-637,
and the post-conversion errors of lines 570-577. -/
inductive HandlerOutcome
  | errEmptyInput
  | errInputTooLarge
  | errInsufficientTime
  | errAllStrategiesFailed (attempted : List String)
  | errNoOutput
  | errEmptyOutput
  | tooLargeResponse (statusCode : Nat) (success : Bool) (fileSize : Nat) (format : String)
      (processingTime : Nat)
  | okResponse (statusCode : Nat) (contentType : String) (ext : String) (bodySize : Nat)
      (isBase64Encoded : Bool)
  deriving DecidableEq, Repr

/-- The filtered/reordered strategy list the handler hands to the engine,
computed once before the first attempt from the large-input flags of lines
240-241 and the classification and capability inputs (lines 530-552). -/
def handlerStrategies (inPath outPath : String) (inputSize : Nat)
    (encoderInfo : EncoderCapabilities) (metadata : Option AudioMetadata) :
    List ConversionStrategy :=
  availableStrategies encoderInfo (isIosM4aOf metadata)
    (strategies inPath outPath (inputSize > 10 * 1024 * 1024)
      (inputSize > 15 * 1024 * 1024))

/-- The handler from the post-download verification onward (lines 509-637):
empty-input and oversize-input guards, the remaining-time guard of lines
541-547, the strategy construction and engine run, output discovery, the
empty-output guard, the 413 size gate and the 200 response.  Returns the
outcome together with the list of strategies actually attempted (empty when
the engine was never started). -/
def handlerAfterDownload (inPath outPath : String) (inputSize : Nat)
    (encoderInfo : EncoderCapabilities) (metadata : Option AudioMetadata)
    (timeElapsed : Nat) (results : Nat → AttemptResult) (totalTime : Nat) :
    HandlerOutcome × List String :=
  if inputSize = 0 then (.errEmptyInput, [])
  else if inputSize > 20 * 1024 * 1024 then (.errInputTooLarge, [])
  else if (MAX_PROCESSING_TIME : Int) - (timeElapsed : Int) < 2000 then
    (.errInsufficientTime, [])
  else
    match runEngine (handlerStrategies inPath outPath inputSize encoderInfo metadata) results with
    | .exhausted attempted => (.errAllStrategiesFailed attempted, attempted)
    | .succeeded winner output attempted =>
      match findFinalOutput (outputFileAfter outPath winner output) outPath with
      | none => (.errNoOutput, attempted)
      | some (finalPath, size) =>
        let ext := extname finalPath
        if size = 0 then (.errEmptyOutput, attempted)
        else if size > NETLIFY_RESPONSE_LIMIT then
          (.tooLargeResponse 413 false size ext totalTime, attempted)
        else (.okResponse 200 (contentTypeFor ext) ext size true, attempted)

/-- The scratch input path used by the concrete scenarios below, following the
handler's `in_<timestamp>.m4a` naming (line 463). -/
def tmpInPath : String := "/tmp/in_1.m4a"

/-- The scratch output path used by the concrete scenarios below, following
the handler's `out_<timestamp>.mp3` naming (line 464). -/
def tmpOutPath : String := "/tmp/out_1.mp3"

/-- The wav strategy as instantiated for a small input (lines 259-270 with the
scratch paths of the concrete scenarios): the head of the engine's list
whenever the input is at most 10 MiB. -/
def wavSmallStrategy : ConversionStrategy :=
  { name := "wav-pcm-compressed"
    args := ["-i", tmpInPath, "-c:a", "pcm_s16le", "-ar", "11025", "-ac", "1", "-f", "wav",
             "-y", stringReplaceFirst tmpOutPath ".mp3" ".wav"] }

/-! ## Helper lemmas -/

/-- A successful `find?` splits the list at its first match. -/
theorem find?_eq_some_split {α} (p : α → Bool) :
    ∀ (l : List α) (a : α), l.find? p = some a →
      ∃ l1 l2, l = l1 ++ a :: l2 ∧ p a = true ∧ ∀ x ∈ l1, p x = false := by
  intro l
  induction l with
  | nil => intro a h; simp [List.find?] at h
  | cons x xs ih =>
    intro a h
    by_cases hp : p x = true
    · rw [List.find?_cons_of_pos _ hp] at h
      cases h
      exact ⟨[], xs, rfl, hp, by simp⟩
    · rw [List.find?_cons_of_neg _ (by simpa using hp)] at h
      obtain ⟨l1, l2, hsplit, hpa, hall⟩ := ih a h
      exact ⟨x :: l1, l2, by simp [hsplit], hpa, by
        intro y hy
        rcases List.mem_cons.mp hy with rfl | hy
        · simpa using hp
        · exact hall y hy⟩

/-- When every attempt fails with a plain failure (non-zero close or spawn
error, no timeout), the timeout-faithful engine walks the whole list,
appending every strategy name to the attempted accumulator in order, and ends
exhausted. -/
theorem runEngineEventsAux_plain_fail (events : Nat → AttemptEvent)
    (h : ∀ k, (events k).isPlainFailure = true) :
    ∀ (strats : List ConversionStrategy) (k : Nat) (acc : List String),
      runEngineEventsAux events strats k acc
        = .exhausted (acc ++ strats.map ConversionStrategy.name) := by
  intro strats
  induction strats with
  | nil => intro k acc; simp [runEngineEventsAux]
  | cons s rest ih =>
    intro k acc
    have hk := h k
    have hcons : runEngineEventsAux events (s :: rest) k acc
        = runEngineEventsAux events rest (k + 1) (acc ++ [s.name]) := by
      rcases hek : events k with _ | _ | ⟨code, output⟩
      · rw [hek] at hk
        simp [AttemptEvent.isPlainFailure] at hk
      · cases rest <;> simp [runEngineEventsAux, hek]
      · rw [hek] at hk
        have hcode : ¬ code = 0 := by simpa [AttemptEvent.isPlainFailure] using hk
        cases rest <;> simp [runEngineEventsAux, hek, hcode]
    rw [hcons, ih (k + 1) (acc ++ [s.name])]
    simp

/-- The ultra-compressed strategy name does not contain "libmp3lame". -/
theorem ultra_name_no_lame : stringIncludes "ultra-compressed" "libmp3lame" = false := by decide

/-- The wav strategy name does not contain "libmp3lame". -/
theorem wav_name_no_lame : stringIncludes "wav-pcm-compressed" "libmp3lame" = false := by decide

/-- The aac strategy name does not contain "libmp3lame". -/
theorem aac_name_no_lame : stringIncludes "aac-compressed" "libmp3lame" = false := by decide

/-- The libmp3lame strategy name contains "libmp3lame". -/
theorem lame_name_has_lame : stringIncludes "libmp3lame-minimal" "libmp3lame" = true := by decide

/-- The filtered/reordered strategy list is never empty: the wav and aac
strategies are always present and the libmp3lame filter never removes them. -/
theorem handlerStrategies_ne_nil (inPath outPath : String) (inputSize : Nat)
    (caps : EncoderCapabilities) (metadata : Option AudioMetadata) :
    handlerStrategies inPath outPath inputSize caps metadata ≠ [] := by
  rcases caps with ⟨l, m, a, wv⟩
  cases hios : isIosM4aOf metadata <;> cases l <;> cases wv <;>
    cases hL : (decide (inputSize > 10 * 1024 * 1024)) <;>
      cases hVL : (decide (inputSize > 15 * 1024 * 1024)) <;>
        simp [handlerStrategies, availableStrategies, strategies, promote, removeFirst,
          hios, hL, hVL, List.find?, List.filter,
          ultra_name_no_lame, wav_name_no_lame, aac_name_no_lame, lame_name_has_lame]

/-- After a successful conversion the produced bytes sit at the requested
output path (possibly via the rename of line 386), and the handler's scan
finds them there. -/
theorem findFinalOutput_outputFileAfter (w : ConversionStrategy) (n : Nat) :
    findFinalOutput (outputFileAfter tmpOutPath w (some n)) tmpOutPath
      = some (tmpOutPath, n) := by
  simp [outputFileAfter, findFinalOutput, possibleOutputs, List.findSome?]

/-- The requested output path carries the mp3 extension. -/
theorem extname_tmpOutPath : extname tmpOutPath = ".mp3" := by decide

/-- The handler epilogue after an engine success that produced `n` bytes:
the guards pass, the output is found at the mp3 path, and the outcome is the
empty-output error, the 413 response, or the 200 response according to `n`. -/
theorem handlerAfterDownload_succeeded (inputSize : Nat)
    (caps : EncoderCapabilities) (metadata : Option AudioMetadata)
    (timeElapsed : Nat) (results : Nat → AttemptResult) (totalTime : Nat)
    (w : ConversionStrategy) (att : List String) (n : Nat)
    (h0 : inputSize ≠ 0) (h1 : ¬ inputSize > 20 * 1024 * 1024)
    (h2 : ¬ ((MAX_PROCESSING_TIME : Int) - (timeElapsed : Int) < 2000))
    (hE : runEngine (handlerStrategies tmpInPath tmpOutPath inputSize caps metadata) results
        = .succeeded w (some n) att) :
    handlerAfterDownload tmpInPath tmpOutPath inputSize caps metadata timeElapsed results totalTime
      = (if n = 0 then .errEmptyOutput
         else if n > NETLIFY_RESPONSE_LIMIT then .tooLargeResponse 413 false n ".mp3" totalTime
         else .okResponse 200 (contentTypeFor ".mp3") ".mp3" n true, att) := by
  unfold handlerAfterDownload
  rw [if_neg h0, if_neg h1, if_neg h2, hE]
  dsimp only
  rw [findFinalOutput_outputFileAfter]
  dsimp only
  rw [extname_tmpOutPath]
  split_ifs <;> rfl

/-- For an input of at most 10 MiB, whatever the capability flags and
classification, the engine's strategy list starts with the wav strategy:
the two promotions look up names ("wav-pcm", "aac-output") that no strategy
carries, and the libmp3lame filter does not touch the head. -/
theorem handlerStrategies_small_head (inputSize : Nat) (caps : EncoderCapabilities)
    (metadata : Option AudioMetadata) (h : ¬ inputSize > 10 * 1024 * 1024) :
    ∃ rest, handlerStrategies tmpInPath tmpOutPath inputSize caps metadata
      = wavSmallStrategy :: rest := by
  have hL : decide (inputSize > 10 * 1024 * 1024) = false := decide_eq_false h
  have hVL : decide (inputSize > 15 * 1024 * 1024) = false := decide_eq_false (by omega)
  rcases caps with ⟨l, m, a, wv⟩
  cases hios : isIosM4aOf metadata <;> cases l <;> cases wv <;>
    (simp only [handlerStrategies]; rw [hL, hVL, hios]; exact ⟨_, rfl⟩)

/-! ## Claim theorems -/

/-- C1, counterexample: in a run where the wav strategy wins (its declared
output is a `.wav` container produced with `-f wav`), the success response
still reports Content-Type "audio/mpeg" and extension ".mp3", because the
rename of line 386 moves the produced file to the requested `.mp3` path before
the handler inspects it.  So the reported content type does not match the
actual container, and the actual extension is replaced by the requested one. -/
theorem wav_output_reported_as_mpeg :
    handlerAfterDownload tmpInPath tmpOutPath 1000 noCapabilities none 0
      (fun _ => ⟨ProcessResult.closed 0, some 500⟩) 1200
      = (.okResponse 200 "audio/mpeg" ".mp3" 500 true, ["wav-pcm-compressed"])
  ∧ (runEngine (handlerStrategies tmpInPath tmpOutPath 1000 noCapabilities none)
      (fun _ => ⟨ProcessResult.closed 0, some 500⟩)).winnerName = some "wav-pcm-compressed"
  ∧ ((handlerStrategies tmpInPath tmpOutPath 1000 noCapabilities none).head?.map
      (fun s => extname (s.args.getLastD ""))) = some ".wav"
  ∧ contentTypeFor ".wav" = "audio/wav"
  ∧ "audio/mpeg" ≠ "audio/wav"
  ∧ ".mp3" ≠ ".wav" := by
  refine ⟨by decide, by decide, by decide, rfl, by decide, by decide⟩

/-- C1, amended: for every run in which a strategy wins with a non-empty
output within the response limit, the success response carries Content-Type
"audio/mpeg" and extension ".mp3" regardless of which strategy won and of the
container it actually produced, because the winning output is always renamed
to the requested `.mp3` path. -/
theorem success_response_always_mp3_mpeg (inputSize : Nat) (caps : EncoderCapabilities)
    (metadata : Option AudioMetadata) (timeElapsed : Nat) (results : Nat → AttemptResult)
    (totalTime : Nat) (w : ConversionStrategy) (att : List String) (n : Nat)
    (h0 : inputSize ≠ 0) (h1 : ¬ inputSize > 20 * 1024 * 1024)
    (h2 : ¬ ((MAX_PROCESSING_TIME : Int) - (timeElapsed : Int) < 2000))
    (hE : runEngine (handlerStrategies tmpInPath tmpOutPath inputSize caps metadata) results
        = .succeeded w (some n) att)
    (hn0 : 0 < n) (hn1 : ¬ n > NETLIFY_RESPONSE_LIMIT) :
    handlerAfterDownload tmpInPath tmpOutPath inputSize caps metadata timeElapsed results totalTime
      = (.okResponse 200 "audio/mpeg" ".mp3" n true, att) := by
  rw [handlerAfterDownload_succeeded inputSize caps metadata timeElapsed results totalTime
    w att n h0 h1 h2 hE]
  rw [if_neg (by omega), if_neg hn1]
  rfl

/-- C1, witness for the amended theorem: the wav-strategy run of 500 bytes
yields the mpeg/mp3-labelled 200 response. -/
theorem success_response_always_mp3_mpeg_witness :
    handlerAfterDownload tmpInPath tmpOutPath 1000 noCapabilities none 0
      (fun _ => ⟨ProcessResult.closed 0, some 500⟩) 1200
      = (.okResponse 200 "audio/mpeg" ".mp3" 500 true, ["wav-pcm-compressed"]) :=
  success_response_always_mp3_mpeg 1000 noCapabilities none 0
    (fun _ => ⟨ProcessResult.closed 0, some 500⟩) 1200 wavSmallStrategy
    ["wav-pcm-compressed"] 500 (by decide) (by decide) (by decide) (by decide)
    (by decide) (by decide)

/-- C2, counterexample: a first attempt that exits zero but leaves a zero-byte
output makes the engine resolve success at that strategy — it does not advance
to the remaining "aac-compressed" strategy — and the zero-byte output is then
surfaced as the terminal empty-output error even though the strategy that
produced it was not the last one. -/
theorem zero_exit_empty_output_not_advanced :
    (runEngine (handlerStrategies tmpInPath tmpOutPath 1000 noCapabilities none)
        (fun _ => ⟨ProcessResult.closed 0, some 0⟩)).winnerName = some "wav-pcm-compressed"
  ∧ (runEngine (handlerStrategies tmpInPath tmpOutPath 1000 noCapabilities none)
        (fun _ => ⟨ProcessResult.closed 0, some 0⟩)).attemptedList = ["wav-pcm-compressed"]
  ∧ (handlerStrategies tmpInPath tmpOutPath 1000 noCapabilities none).map
        ConversionStrategy.name = ["wav-pcm-compressed", "aac-compressed"]
  ∧ handlerAfterDownload tmpInPath tmpOutPath 1000 noCapabilities none 0
        (fun _ => ⟨ProcessResult.closed 0, some 0⟩) 1200
      = (.errEmptyOutput, ["wav-pcm-compressed"]) := by
  refine ⟨by decide, by decide, by decide, by decide⟩

/-- C2, amended: a zero exit status alone resolves the engine successfully —
the output file is not inspected per attempt — and a zero-byte output is
detected only after the engine returns, as the invocation's terminal
empty-output error, even when untried strategies remain. -/
theorem zero_exit_resolves_engine_empty_output_terminal (inputSize : Nat)
    (caps : EncoderCapabilities) (metadata : Option AudioMetadata) (timeElapsed : Nat)
    (results : Nat → AttemptResult) (totalTime : Nat)
    (h0 : inputSize ≠ 0) (h1 : ¬ inputSize > 10 * 1024 * 1024)
    (h2 : ¬ ((MAX_PROCESSING_TIME : Int) - (timeElapsed : Int) < 2000))
    (hp : (results 0).proc = ProcessResult.closed 0)
    (ho : (results 0).output = some 0) :
    runEngine (handlerStrategies tmpInPath tmpOutPath inputSize caps metadata) results
      = .succeeded wavSmallStrategy (some 0) ["wav-pcm-compressed"]
  ∧ handlerAfterDownload tmpInPath tmpOutPath inputSize caps metadata timeElapsed results totalTime
      = (.errEmptyOutput, ["wav-pcm-compressed"]) := by
  obtain ⟨rest, hrest⟩ := handlerStrategies_small_head inputSize caps metadata h1
  have hE : runEngine (handlerStrategies tmpInPath tmpOutPath inputSize caps metadata) results
      = .succeeded wavSmallStrategy (some 0) ["wav-pcm-compressed"] := by
    rw [hrest]
    simp [runEngine, runEngineFrom, hp, ho, wavSmallStrategy]
  refine ⟨hE, ?_⟩
  rw [handlerAfterDownload_succeeded inputSize caps metadata timeElapsed results totalTime
    wavSmallStrategy ["wav-pcm-compressed"] 0 h0 (by omega) h2 hE]
  rfl

/-- C2, witness for the amended theorem. -/
theorem zero_exit_resolves_engine_empty_output_terminal_witness :
    (runEngine (handlerStrategies tmpInPath tmpOutPath 1000 noCapabilities none)
        (fun _ => ⟨ProcessResult.closed 0, some 0⟩)
      = .succeeded wavSmallStrategy (some 0) ["wav-pcm-compressed"])
  ∧ handlerAfterDownload tmpInPath tmpOutPath 1000 noCapabilities none 0
        (fun _ => ⟨ProcessResult.closed 0, some 0⟩) 1200
      = (.errEmptyOutput, ["wav-pcm-compressed"]) :=
  zero_exit_resolves_engine_empty_output_terminal 1000 noCapabilities none 0
    (fun _ => ⟨ProcessResult.closed 0, some 0⟩) 1200
    (by decide) (by decide) (by decide) rfl rfl

/-- C3: on an input classified as the iOS M4A profile, the reordering of
lines 327-336 looks for a strategy named "aac-output", which does not exist
in this file's strategy list (the names are ultra-compressed,
wav-pcm-compressed, aac-compressed, libmp3lame-minimal), so the list is left
unchanged and the first attempted strategy is "wav-pcm-compressed", not the
codec-matched AAC strategy — contrary to the code's own log line
"prioritizing iOS-specific strategies". -/
theorem ios_m4a_reorder_is_dead_code :
    isIosM4aOf (some ⟨"mov,mp4,m4a", some "aac", false⟩) = true
  ∧ (strategies tmpInPath tmpOutPath false false).find? (fun s => s.name == "aac-output") = none
  ∧ availableStrategies { hasLibmp3lame := true, hasMp3 := true, hasAac := true, hasWav := true }
      true (strategies tmpInPath tmpOutPath false false)
      = strategies tmpInPath tmpOutPath false false
  ∧ ((availableStrategies { hasLibmp3lame := true, hasMp3 := true, hasAac := true, hasWav := true }
      true (strategies tmpInPath tmpOutPath false false)).head?.map ConversionStrategy.name)
      = some "wav-pcm-compressed"
  ∧ (runEngine (availableStrategies
        { hasLibmp3lame := true, hasMp3 := true, hasAac := true, hasWav := true }
        true (strategies tmpInPath tmpOutPath false false))
      (fun _ => ⟨ProcessResult.closed 0, some 500⟩)).winnerName
      = some "wav-pcm-compressed" := by
  refine ⟨by decide, by decide, by decide, by decide, by decide⟩

/-- C4, counterexample: with 2000 ms of budget left at the start of the
conversion phase, every attempt's kill timer is armed with the same 1500 ms;
by the time attempt 1 starts (after attempt 0 timed out), 1600 ms of the
budget are gone, so no fixed cap can make 1500 equal min(remaining, cap), and
two timed-out attempts alone already run past the 2000 ms budget. -/
theorem per_attempt_timeout_uncapped_counterexample :
    conversionTimeoutMs 2000 = 1500
  ∧ perAttemptTimeoutMs (conversionTimeoutMs 2000) 1 = 1500
  ∧ elapsedBeforeAttempt (conversionTimeoutMs 2000) 1 = 1600
  ∧ (¬ ∃ cap : Nat,
      min (2000 - elapsedBeforeAttempt (conversionTimeoutMs 2000) 1) cap
        = perAttemptTimeoutMs (conversionTimeoutMs 2000) 1)
  ∧ 2000 < elapsedBeforeAttempt (conversionTimeoutMs 2000) 2 := by
  refine ⟨rfl, rfl, rfl, ?_, by decide⟩
  rintro ⟨cap, hcap⟩
  simp only [elapsedBeforeAttempt, conversionTimeoutMs, perAttemptTimeoutMs] at hcap
  have h1 := Nat.min_le_left (2000 - 1 * (2000 - 500 + 100)) cap
  omega

/-- C4, amended: every attempt of one conversion run is launched with the same
timeout — the remaining budget at the start of the conversion phase minus the
500 ms margin — with no per-attempt cap and no recomputation, so two
consecutive timed-out attempts already exceed that remaining budget. -/
theorem per_attempt_timeout_constant (remainingTime : Nat) (h : 1000 ≤ remainingTime)
    (i j : Nat) :
    perAttemptTimeoutMs (conversionTimeoutMs remainingTime) i
      = perAttemptTimeoutMs (conversionTimeoutMs remainingTime) j
  ∧ perAttemptTimeoutMs (conversionTimeoutMs remainingTime) i = remainingTime - 500
  ∧ remainingTime < elapsedBeforeAttempt (conversionTimeoutMs remainingTime) 2 := by
  refine ⟨rfl, rfl, ?_⟩
  simp only [elapsedBeforeAttempt, conversionTimeoutMs]
  omega

/-- C4, witness for the amended theorem. -/
theorem per_attempt_timeout_constant_witness :
    perAttemptTimeoutMs (conversionTimeoutMs 2000) 0
      = perAttemptTimeoutMs (conversionTimeoutMs 2000) 5
  ∧ perAttemptTimeoutMs (conversionTimeoutMs 2000) 0 = 2000 - 500
  ∧ 2000 < elapsedBeforeAttempt (conversionTimeoutMs 2000) 2 :=
  per_attempt_timeout_constant 2000 (by decide) 0 5

/-- C5, counterexample: when the encoder-listing subprocess closes with a
non-zero exit code, the prober still parses whatever stdout it collected —
here yielding capability flags that are not all false — instead of returning
the all-false EncoderCapabilities the claim requires for non-zero exits. -/
theorem encoder_probe_nonzero_exit_parses_stdout :
    (checkAvailableEncoders (.encoderClose 1 "libmp3lame aac pcm_s16le")).1
      = { hasLibmp3lame := true, hasMp3 := false, hasAac := true, hasWav := true }
  ∧ (checkAvailableEncoders (.encoderClose 1 "libmp3lame aac pcm_s16le")).1
      ≠ noCapabilities := by
  refine ⟨by decide, by decide⟩

/-- C5, amended: the prober returns all-false capabilities on the
encoder-listing timeout, on a spawn error of either subprocess, and otherwise
parses the collected stdout with the exit code ignored — a non-zero exit with
encoder names on stdout yields the parsed flags, not all-false. -/
theorem encoder_probe_failure_modes :
    (∀ code code2 : Int, ∀ out : String,
      checkAvailableEncoders (.encoderClose code out)
        = checkAvailableEncoders (.encoderClose code2 out))
  ∧ (checkAvailableEncoders .encoderTimeout).1 = noCapabilities
  ∧ (checkAvailableEncoders .encoderSpawnError).1 = noCapabilities
  ∧ (checkAvailableEncoders .configError).1 = noCapabilities :=
  ⟨fun _ _ _ => rfl, rfl, rfl, rfl⟩

/-- C6, counterexample: on a filesystem where no candidate path passes the
is-a-regular-file check, the locator throws BinaryNotFound instead of
returning the bare command name for search-path resolution, which is what the
claim (modelled by `locateBinarySpec`) prescribes for that situation. -/
theorem locator_no_bare_fallback_counterexample :
    getFFmpegPaths (fun _ => false) "/var/task/functions" "/var/task"
      = Except.error BinaryNotFound.ffmpeg
  ∧ locateBinarySpec (fun _ => false)
      ((possibleFFmpegPaths "/var/task/functions" "/var/task").dropLast) "ffmpeg"
      = "ffmpeg" :=
  ⟨rfl, rfl⟩

/-- C6, amended: the locator returns the first candidate in the ordered list
that passes the filesystem check, where the bare command name is the last
candidate and is checked like any other path; when no candidate at all —
including the bare name — passes the check, it fails with BinaryNotFound,
never returning the bare name unconditionally. -/
theorem locator_first_match_or_error (isFile : String → Bool) (dirname cwd : String) :
    (∀ f p, getFFmpegPaths isFile dirname cwd = Except.ok (f, p) →
      ((∃ l1 l2, possibleFFmpegPaths dirname cwd = l1 ++ f :: l2 ∧ isFile f = true
          ∧ ∀ x ∈ l1, isFile x = false)
       ∧ (∃ l1 l2, ffprobeCandidatePaths dirname cwd = l1 ++ p :: l2 ∧ isFile p = true
          ∧ ∀ x ∈ l1, isFile x = false)))
  ∧ ((∀ x ∈ possibleFFmpegPaths dirname cwd, isFile x = false) →
      getFFmpegPaths isFile dirname cwd = Except.error BinaryNotFound.ffmpeg) := by
  constructor
  · intro f p h
    unfold getFFmpegPaths at h
    rcases hf : (possibleFFmpegPaths dirname cwd).find? isFile with _ | f' <;>
      rcases hp : (ffprobeCandidatePaths dirname cwd).find? isFile with _ | p' <;>
        rw [hf, hp] at h <;> simp at h
    obtain ⟨rfl, rfl⟩ := h
    exact ⟨find?_eq_some_split isFile _ _ hf, find?_eq_some_split isFile _ _ hp⟩
  · intro hall
    have hnone : (possibleFFmpegPaths dirname cwd).find? isFile = none :=
      List.find?_eq_none.mpr (fun x hx => by simp [hall x hx])
    unfold getFFmpegPaths
    rw [hnone]

/-- C6, witness for the amended theorem: a filesystem exposing only the
/opt/bin pair resolves to those paths as the first matches, and the empty
filesystem makes the locator fail. -/
theorem locator_first_match_or_error_witness :
    ((∃ l1 l2, possibleFFmpegPaths "/d" "/c" = l1 ++ "/opt/bin/ffmpeg" :: l2
        ∧ (fun s => s == "/opt/bin/ffmpeg" || s == "/opt/bin/ffprobe") "/opt/bin/ffmpeg" = true
        ∧ ∀ x ∈ l1, (fun s => s == "/opt/bin/ffmpeg" || s == "/opt/bin/ffprobe") x = false)
     ∧ (∃ l1 l2, ffprobeCandidatePaths "/d" "/c" = l1 ++ "/opt/bin/ffprobe" :: l2
        ∧ (fun s => s == "/opt/bin/ffmpeg" || s == "/opt/bin/ffprobe") "/opt/bin/ffprobe" = true
        ∧ ∀ x ∈ l1, (fun s => s == "/opt/bin/ffmpeg" || s == "/opt/bin/ffprobe") x = false))
  ∧ getFFmpegPaths (fun _ => false) "/d" "/c" = Except.error BinaryNotFound.ffmpeg :=
  ⟨(locator_first_match_or_error
      (fun s => s == "/opt/bin/ffmpeg" || s == "/opt/bin/ffprobe") "/d" "/c").1
      "/opt/bin/ffmpeg" "/opt/bin/ffprobe" rfl,
   (locator_first_match_or_error (fun _ => false) "/d" "/c").2 (fun _ _ => rfl)⟩

/-- C7, counterexample: on the two-strategy filtered list, a first attempt
that times out makes the kill timer and the killed process's close event each
advance the shared strategy index, so the first retry finds the index past the
end of the list and rejects with AllStrategiesFailed carrying only
"wav-pcm-compressed" — the "aac-compressed" strategy of the filtered list is
never attempted and missing from the attempted list, refuting that the list
is exactly the filtered/reordered list in attempt order. -/
theorem timeout_double_advance_skips_strategy :
    runEngineEvents (handlerStrategies tmpInPath tmpOutPath 1000 noCapabilities none)
        (fun _ => AttemptEvent.timedOut)
      = .exhausted ["wav-pcm-compressed"]
  ∧ (handlerStrategies tmpInPath tmpOutPath 1000 noCapabilities none).map
        ConversionStrategy.name = ["wav-pcm-compressed", "aac-compressed"]
  ∧ (["wav-pcm-compressed"] : List String) ≠ ["wav-pcm-compressed", "aac-compressed"] := by
  refine ⟨by decide, by decide, by decide⟩

/-- C7, amended: for runs whose attempts all fail with plain non-zero exits or
spawn errors (no per-attempt timeout), the exhaustion outcome carries exactly
the names of the filtered/reordered list — computed once from the pre-engine
inputs, never between attempts — in list order, and that list is never empty;
a run containing a timed-out attempt can instead omit strategies of the
filtered list, because the timeout path advances the strategy index twice. -/
theorem plain_failure_exhaustion_attempted_exact (inputSize : Nat)
    (caps : EncoderCapabilities) (metadata : Option AudioMetadata)
    (events : Nat → AttemptEvent)
    (h : ∀ k, (events k).isPlainFailure = true) :
    runEngineEvents (handlerStrategies tmpInPath tmpOutPath inputSize caps metadata) events
      = .exhausted ((handlerStrategies tmpInPath tmpOutPath inputSize caps metadata).map
          ConversionStrategy.name)
  ∧ (handlerStrategies tmpInPath tmpOutPath inputSize caps metadata).map
      ConversionStrategy.name ≠ [] := by
  constructor
  · rw [runEngineEvents, runEngineEventsAux_plain_fail events h _ 0 []]
    simp
  · intro hmap
    exact handlerStrategies_ne_nil tmpInPath tmpOutPath inputSize caps metadata
      (List.map_eq_nil_iff.mp hmap)

/-- C7, witness for the amended theorem: every attempt closing with exit code
1 walks the whole filtered list in order. -/
theorem plain_failure_exhaustion_attempted_exact_witness :
    (runEngineEvents (handlerStrategies tmpInPath tmpOutPath 1000 noCapabilities none)
        (fun _ => AttemptEvent.closed 1 none)
      = .exhausted ((handlerStrategies tmpInPath tmpOutPath 1000 noCapabilities none).map
          ConversionStrategy.name))
  ∧ (handlerStrategies tmpInPath tmpOutPath 1000 noCapabilities none).map
      ConversionStrategy.name ≠ [] :=
  plain_failure_exhaustion_attempted_exact 1000 noCapabilities none
    (fun _ => AttemptEvent.closed 1 none) (fun _ => rfl)

/-- C8: when fewer than 2000 ms of the 9000 ms budget remain at the
remaining-time check, the invocation fails with the insufficient-time error
and no strategy is ever attempted (the attempted list is empty). -/
theorem insufficient_time_fails_fast (inputSize : Nat) (caps : EncoderCapabilities)
    (metadata : Option AudioMetadata) (timeElapsed : Nat) (results : Nat → AttemptResult)
    (totalTime : Nat) (h0 : inputSize ≠ 0) (h1 : ¬ inputSize > 20 * 1024 * 1024)
    (h2 : (MAX_PROCESSING_TIME : Int) - (timeElapsed : Int) < 2000) :
    handlerAfterDownload tmpInPath tmpOutPath inputSize caps metadata timeElapsed results totalTime
      = (.errInsufficientTime, []) := by
  unfold handlerAfterDownload
  rw [if_neg h0, if_neg h1, if_pos h2]

/-- C8, witness. -/
theorem insufficient_time_fails_fast_witness :
    handlerAfterDownload tmpInPath tmpOutPath 1000 noCapabilities none 7500
      (fun _ => ⟨ProcessResult.closed 0, some 500⟩) 9000
      = (.errInsufficientTime, []) :=
  insufficient_time_fails_fast 1000 noCapabilities none 7500
    (fun _ => ⟨ProcessResult.closed 0, some 500⟩) 9000
    (by decide) (by decide) (by decide)

/-- C9: a downloaded input of exactly zero bytes yields the empty-input error
with no strategy ever attempted, whatever the capabilities, classification,
elapsed time or would-be attempt outcomes. -/
theorem empty_input_terminal (caps : EncoderCapabilities) (metadata : Option AudioMetadata)
    (timeElapsed : Nat) (results : Nat → AttemptResult) (totalTime : Nat) :
    handlerAfterDownload tmpInPath tmpOutPath 0 caps metadata timeElapsed results totalTime
      = (.errEmptyInput, []) := rfl

/-- C10: when a strategy succeeds but the produced output exceeds the 3 MiB
response limit, the handler does not return the binary payload: it returns the
413 response with success false, carrying the output size, the format and the
processing time. -/
theorem oversize_output_413 (inputSize : Nat) (caps : EncoderCapabilities)
    (metadata : Option AudioMetadata) (timeElapsed : Nat) (results : Nat → AttemptResult)
    (totalTime : Nat) (w : ConversionStrategy) (att : List String) (n : Nat)
    (h0 : inputSize ≠ 0) (h1 : ¬ inputSize > 20 * 1024 * 1024)
    (h2 : ¬ ((MAX_PROCESSING_TIME : Int) - (timeElapsed : Int) < 2000))
    (hE : runEngine (handlerStrategies tmpInPath tmpOutPath inputSize caps metadata) results
        = .succeeded w (some n) att)
    (hn : NETLIFY_RESPONSE_LIMIT < n) :
    handlerAfterDownload tmpInPath tmpOutPath inputSize caps metadata timeElapsed results totalTime
      = (.tooLargeResponse 413 false n ".mp3" totalTime, att) := by
  rw [handlerAfterDownload_succeeded inputSize caps metadata timeElapsed results totalTime
    w att n h0 h1 h2 hE]
  rw [if_neg (by omega), if_pos (by omega)]

/-- C10, witness: a 4 MiB output from the winning wav strategy yields the
413 classified response, not a 200. -/
theorem oversize_output_413_witness :
    handlerAfterDownload tmpInPath tmpOutPath 1000 noCapabilities none 0
      (fun _ => ⟨ProcessResult.closed 0, some 4194304⟩) 1200
      = (.tooLargeResponse 413 false 4194304 ".mp3" 1200, ["wav-pcm-compressed"]) :=
  oversize_output_413 1000 noCapabilities none 0
    (fun _ => ⟨ProcessResult.closed 0, some 4194304⟩) 1200 wavSmallStrategy
    ["wav-pcm-compressed"] 4194304 (by decide) (by decide) (by decide) (by decide) (by decide)

end AudioConvert
